import Mathlib

set_option autoImplicit false

/-!
Verification of the Shiplight examples repository.

The repository consists of example scripts driving an external browser-automation
SDK, plus two small Playwright helpers (`getCartCount`, `clearCart`) and three
custom-action handlers.  The variable-store contract (`set` / `get` / `resolve` /
`renderForLog`) and the `agent.step` / `agent.assert` result conventions belong to
the external SDK, whose source is not in the repository; those are modelled from
the specification's words.  Everything else is translated from the source files.
-/

namespace Shiplight

/-! ## Variable store (modelled from the spec) -/

/-- Modelled from the spec: a variable is `{ name, value, sensitive }`
(spec section 3, DATA MODEL); the SDK source holding the real implementation
is not part of this repository. -/
structure Variable where
  name : String
  value : String
  sensitive : Bool
deriving Repr, DecidableEq

/-- Modelled from the spec: the store is an ordered key-value mapping of
variables (spec sections 3 and 9). -/
def VariableStore := List Variable

def VariableStore.empty : VariableStore := []

/-- Modelled from the spec: `set(name, value, sensitive=false)` inserts or
overwrites the named variable (spec section 4.1). -/
def VariableStore.set : VariableStore → String → String → Bool → VariableStore
  | [], n, v, sens => [⟨n, v, sens⟩]
  | x :: rest, n, v, sens =>
      if x.name = n then ⟨n, v, sens⟩ :: rest
      else x :: VariableStore.set rest n v sens

/-- Lookup of the full entry (value together with the sensitivity flag). -/
def VariableStore.find : VariableStore → String → Option (String × Bool)
  | [], _ => none
  | x :: rest, n =>
      if x.name = n then some (x.value, x.sensitive)
      else VariableStore.find rest n

/-- Modelled from the spec: `get(name)` returns the stored value or an absent
result if unset; it never masks (spec section 4.1). -/
def VariableStore.get (s : VariableStore) (n : String) : Option String :=
  (s.find n).map Prod.fst

/-! ### Placeholder substitution (modelled from the spec)

`resolve(text)` replaces every `$name` or `\x7b\x7b name \x7d\x7d` occurrence
(whitespace-tolerant inside braces) by the variable's value and leaves
unresolved placeholders verbatim (spec section 4.1).  The scanner below is a
single left-to-right pass parameterised by a lookup oracle, so that `resolve`
and `renderForLog` share the substitution and differ only in the oracle. -/

def isIdentChar (c : Char) : Bool := c.isAlphanum || c = '_'

def isSpaceChar (c : Char) : Bool := c = ' ' || c = '\t'

/-- Result of parsing the inside of a `\x7b\x7b name \x7d\x7d` placeholder:
the two whitespace runs, the name, and the remaining text after `\x7d\x7d`. -/
structure BraceMatch where
  ws1 : List Char
  nameChars : List Char
  ws2 : List Char
  rest : List Char

/-- Parse `ws name ws \x7d\x7d` (the text following the two opening braces). -/
def parseBraces (l : List Char) : Option BraceMatch :=
  let ws1 := l.takeWhile isSpaceChar
  let t1 := l.dropWhile isSpaceChar
  let nm := t1.takeWhile isIdentChar
  let t2 := t1.dropWhile isIdentChar
  let ws2 := t2.takeWhile isSpaceChar
  let t3 := t2.dropWhile isSpaceChar
  match nm, t3 with
  | _ :: _, d1 :: d2 :: rest1 =>
      if d1 = '\x7d' then
        if d2 = '\x7d' then some ⟨ws1, nm, ws2, rest1⟩ else none
      else none
  | _, _ => none

/-- One fuelled pass over the character list.  Each step consumes at least one
character and one unit of fuel, so fuel equal to the length of the text
suffices. -/
def substGo (look : String → Option String) : Nat → List Char → List Char
  | 0, l => l
  | _ + 1, [] => []
  | fuel + 1, c :: rest =>
      if c = '$' then
        let nm := rest.takeWhile isIdentChar
        if nm = [] then c :: substGo look fuel rest
        else
          match look (String.mk nm) with
          | some v => v.data ++ substGo look fuel (rest.dropWhile isIdentChar)
          | none => c :: (nm ++ substGo look fuel (rest.dropWhile isIdentChar))
      else if c = '\x7b' then
        match rest with
        | c2 :: rest2 =>
            if c2 = '\x7b' then
              match parseBraces rest2 with
              | some m =>
                  match look (String.mk m.nameChars) with
                  | some v => v.data ++ substGo look fuel m.rest
                  | none =>
                      c :: c2 :: (m.ws1 ++ m.nameChars ++ m.ws2 ++
                        '\x7d' :: '\x7d' :: substGo look fuel m.rest)
              | none => c :: substGo look fuel rest
            else c :: substGo look fuel rest
        | [] => [c]
      else c :: substGo look fuel rest

def substitute (look : String → Option String) (text : String) : String :=
  String.mk (substGo look text.data.length text.data)

/-- The scanner run at its canonical fuel (the text length). -/
def substRun (look : String → Option String) (l : List Char) : List Char :=
  substGo look l.length l

/-- True when the list is empty or does not begin with an identifier
character, so a preceding `$name` placeholder cannot capture its start. -/
def headNotIdent : List Char → Bool
  | [] => true
  | c :: _ => !(isIdentChar c)

/-- A lexical piece of an instruction string: literal text free of `$` and of
the opening brace, a `$name` placeholder, or a whitespace-padded
`\x7b\x7b name \x7d\x7d` placeholder.  Every input string decomposes into such
pieces, and quantifying over all decompositions expresses that every
occurrence of a placeholder is substituted. -/
inductive Piece where
  | lit (s : List Char)
  | dollar (nameChars : List Char)
  | braces (ws1 nameChars ws2 : List Char)
deriving Repr, DecidableEq

/-- The source text of a piece. -/
def Piece.render : Piece → List Char
  | Piece.lit s => s
  | Piece.dollar n => '$' :: n
  | Piece.braces w1 n w2 => '\x7b' :: '\x7b' :: (w1 ++ (n ++ (w2 ++ ['\x7d', '\x7d'])))

/-- What the substitution produces for one piece: literal text is copied, a
placeholder becomes the looked-up value, and a placeholder whose name is not
set stays verbatim. -/
def Piece.resolveOne (look : String → Option String) : Piece → List Char
  | Piece.lit s => s
  | Piece.dollar n =>
      match look (String.mk n) with
      | some v => v.data
      | none => '$' :: n
  | Piece.braces w1 n w2 =>
      match look (String.mk n) with
      | some v => v.data
      | none => '\x7b' :: '\x7b' :: (w1 ++ (n ++ (w2 ++ ['\x7d', '\x7d'])))

/-- Well-formedness of a piece: literal pieces are non-empty and free of `$`
and of the opening brace, placeholder names are non-empty identifier text, and
brace padding is whitespace. -/
def Piece.wf : Piece → Prop
  | Piece.lit s => s ≠ [] ∧ ∀ c ∈ s, c ≠ '$' ∧ c ≠ '\x7b'
  | Piece.dollar n => n ≠ [] ∧ ∀ c ∈ n, isIdentChar c = true
  | Piece.braces w1 n w2 =>
      (∀ c ∈ w1, isSpaceChar c = true) ∧ (n ≠ [] ∧ ∀ c ∈ n, isIdentChar c = true) ∧
        ∀ c ∈ w2, isSpaceChar c = true

instance : DecidablePred Piece.wf := fun p =>
  match p with
  | Piece.lit s =>
      inferInstanceAs (Decidable (s ≠ [] ∧ ∀ c ∈ s, c ≠ '$' ∧ c ≠ '\x7b'))
  | Piece.dollar n =>
      inferInstanceAs (Decidable (n ≠ [] ∧ ∀ c ∈ n, isIdentChar c = true))
  | Piece.braces w1 n w2 =>
      inferInstanceAs (Decidable ((∀ c ∈ w1, isSpaceChar c = true) ∧
        (n ≠ [] ∧ ∀ c ∈ n, isIdentChar c = true) ∧ ∀ c ∈ w2, isSpaceChar c = true))

/-- Adjacent-piece condition: the text following a `$name` placeholder must
not begin with an identifier character, otherwise the scanner would read a
longer name there. -/
def sepOk : List Piece → Bool
  | [] => true
  | [_] => true
  | p :: q :: rest =>
      (match p with
       | Piece.dollar _ => headNotIdent q.render
       | _ => true) && sepOk (q :: rest)

/-- Modelled from the spec: `resolve(text)` substitutes each set variable's
value and leaves unknown placeholders verbatim (spec section 4.1). -/
def VariableStore.resolve (s : VariableStore) (text : String) : String :=
  substitute (fun n => s.get n) text

/-- Modelled from the spec: the fixed mask token used for sensitive values in
log output (spec section 4.1). -/
def maskToken : String := "***"

/-- Modelled from the spec: `renderForLog(text)` performs the same substitution
as `resolve`, but a sensitive variable contributes the mask token instead of
its value (spec section 4.1). -/
def VariableStore.renderForLog (s : VariableStore) (text : String) : String :=
  substitute (fun n => (s.find n).map (fun vb => if vb.2 then maskToken else vb.1)) text

/-- Modelled from the spec: the call `renderForLog(text)` as a state-passing
operation; masking is a presentation-layer concern and never alters the stored
mapping (spec sections 3 and 4.1), so the store component is returned
unchanged. -/
def VariableStore.renderForLogCall (s : VariableStore) (text : String) :
    String × VariableStore :=
  (s.renderForLog text, s)

/-- The store with every sensitive value replaced by the mask token; the spec
describes `renderForLog` as the same substitution as `resolve` with sensitive
values masked, i.e. `resolve` over this store (spec section 4.1). -/
def VariableStore.maskSensitive (s : VariableStore) : VariableStore :=
  s.map (fun x => if x.sensitive then ⟨x.name, maskToken, x.sensitive⟩ else x)

/-! ## agent.step and agent.assert conventions (C5, C6) -/

/-- The `{success, details}` result object of `agent.step`. -/
structure AgentStepResult where
  success : Bool
  details : Option String
deriving Repr, DecidableEq

/-- Modelled from the spec: `agent.step(page, fallbackProcedure, description,
{maxSteps})` returns `{success, details}` rather than throwing (spec sections 6
and 7); per the summary printed by the self-healing example itself, `success`
is true when the original code or the agent recovery succeeded, false when both
failed, and `maxSteps: 0` returns the failure immediately without recovery.
The SDK implementation is not part of this repository. -/
def stepModel (fallback recovery : Except String Unit) (maxSteps : Nat) :
    AgentStepResult :=
  match fallback with
  | Except.ok _ => ⟨true, none⟩
  | Except.error e =>
      if maxSteps = 0 then ⟨false, some e⟩
      else
        match recovery with
        | Except.ok _ => ⟨true, none⟩
        | Except.error e2 => ⟨false, some e2⟩

/-- JS template-literal rendering of a possibly-undefined string. -/
def jsShowOpt : Option String → String
  | none => "undefined"
  | some s => s

/-- From src/unnamed/part_002 lines 71-76: the script's branch on
`result1.success` after the first `agent.step` call. -/
def part1Report (r : AgentStepResult) : List String :=
  ("   result.success: " ++ toString r.success) ::
    (if r.success then ["   Agent successfully found and clicked the search input!\n"]
     else ["   Self-healing failed: " ++ jsShowOpt r.details ++ "\n"])

/-- From src/unnamed/part_002 lines 62-76: run the step and handle its result;
the surrounding computation may throw (`Except`), but the step itself only
contributes a result object. -/
def part1Run (fallback recovery : Except String Unit) : Except String (List String) := do
  let r := stepModel fallback recovery 1
  pure (part1Report r)

/-- Modelled from the spec: `agent.assert(page, instruction)` fails with a
thrown error exactly when the asserted condition is false (spec section 6);
the SDK implementation is not part of this repository. -/
def assertModel (cond : Bool) : Except String Unit :=
  if cond then Except.ok () else Except.error "Assertion failed"

/-- A JS `try \x7b body \x7d catch (e) \x7b handler(e) \x7d` block: a caught
error becomes a normal result, so nothing propagates out of the block. -/
def tryCatchBlock (body : Except String (List String))
    (handler : String → List String) : Except String (List String) :=
  match body with
  | Except.ok v => Except.ok v
  | Except.error e => Except.ok (handler e)

/-- From src/unnamed/part_003 lines 90-97: the script wraps the deliberately
failing assertion in try/catch and logs whichever branch runs. -/
def assertDemoSection (cond : Bool) : Except String (List String) :=
  tryCatchBlock
    (do
      let _ ← assertModel cond
      pure ["Assertion passed (unexpected)"])
    (fun e => ["Assertion failed as expected:\n " ++ e])

/-! ## API-key guard in every example script (C7) -/

/-- Console and process effects performed by a script prelude. -/
inductive ScriptEvent where
  | consoleError (msg : String)
  | consoleLog (msg : String)
  | exitProcess (code : Nat)
  | configureSdk
deriving Repr, DecidableEq

/-- The environment variables the example scripts read. -/
structure Env where
  anthropicApiKey : Option String
  googleApiKey : Option String
  googleGenerativeAiApiKey : Option String

/-- JS truthiness of `process.env.X`: `undefined` and `""` are falsy. -/
def jsTruthy : Option String → Bool
  | none => false
  | some s => s != ""

/-- JS `a || b` on possibly-undefined strings. -/
def jsOr (a b : Option String) : Option String :=
  if jsTruthy a then a else b

/-- The `if (!apiKey) \x7b console.error(...); console.log(...);
process.exit(1); \x7d configureSdk(...)` pattern shared by every example
script. -/
def apiKeyGuard (key : Option String) (errMsg hintMsg : String) : List ScriptEvent :=
  if jsTruthy key then [ScriptEvent.configureSdk]
  else [ScriptEvent.consoleError errMsg, ScriptEvent.consoleLog hintMsg,
    ScriptEvent.exitProcess 1]

def anthropicKeyHint : String :=
  "   Add to .env file or get your key from: https://console.anthropic.com/settings/keys"

def googleKeyHint : String :=
  "   Add to .env file or get your key from: https://aistudio.google.com/app/apikey"

/-- From src/sdk-examples/quickStart.ts lines 35-43. -/
def quickStartPrelude (env : Env) : List ScriptEvent :=
  apiKeyGuard env.anthropicApiKey "Error: ANTHROPIC_API_KEY not set" anthropicKeyHint

/-- From src/sdk-examples/customActions.ts lines 34-40. -/
def customActionsPrelude (env : Env) : List ScriptEvent :=
  apiKeyGuard env.anthropicApiKey "Error: ANTHROPIC_API_KEY not set" anthropicKeyHint

/-- From the Claude variables example lines 190-196 (second file in the
customActions source group). -/
def variablesClaudePrelude (env : Env) : List ScriptEvent :=
  apiKeyGuard env.anthropicApiKey "Error: ANTHROPIC_API_KEY not set" anthropicKeyHint

/-- From src/examples/extractionExample.ts lines 28-34. -/
def extractionPrelude (env : Env) : List ScriptEvent :=
  apiKeyGuard env.anthropicApiKey "Error: ANTHROPIC_API_KEY not set" anthropicKeyHint

/-- From src/unnamed/part_003 lines 36-41 (basic usage example). -/
def basicUsagePrelude (env : Env) : List ScriptEvent :=
  apiKeyGuard (jsOr env.googleApiKey env.googleGenerativeAiApiKey)
    "❌ Error: GOOGLE_API_KEY not set" googleKeyHint

/-- From src/unnamed/part_002 lines 27-33 (self-healing example). -/
def selfHealingPrelude (env : Env) : List ScriptEvent :=
  apiKeyGuard (jsOr env.googleApiKey env.googleGenerativeAiApiKey)
    "Error: GOOGLE_API_KEY not set" googleKeyHint

/-- From src/unnamed/part_002 lines 212-218 (Gemini variables example). -/
def variablesGeminiPrelude (env : Env) : List ScriptEvent :=
  apiKeyGuard (jsOr env.googleApiKey env.googleGenerativeAiApiKey)
    "❌ Error: GOOGLE_API_KEY not set" googleKeyHint

/-- From src/examples/fileOperationsExample.ts lines 29-35. -/
def fileOperationsPrelude (env : Env) : List ScriptEvent :=
  apiKeyGuard (jsOr env.googleApiKey env.googleGenerativeAiApiKey)
    "❌ Error: GOOGLE_API_KEY not set" googleKeyHint

/-- From src/examples/extractionExample.ts lines 220-225 (login example, the
second script in that source group). -/
def loginPrelude (env : Env) : List ScriptEvent :=
  apiKeyGuard (jsOr env.googleApiKey env.googleGenerativeAiApiKey)
    "❌ Error: GOOGLE_API_KEY not set" googleKeyHint

/-- Every example script's prelude: the four Claude scripts, the four Gemini
scripts, and the Gemini login example. -/
def examplePreludes : List (Env → List ScriptEvent) :=
  [quickStartPrelude, customActionsPrelude, variablesClaudePrelude,
    extractionPrelude, basicUsagePrelude, selfHealingPrelude,
    variablesGeminiPrelude, fileOperationsPrelude, loginPrelude]

/-- Recognises a prelude trace that prints a console message and terminates
the process with a non-zero exit code, performing nothing else (in particular
no `configureSdk`). -/
def guardFailTrace : List ScriptEvent → Bool
  | [ScriptEvent.consoleError _, ScriptEvent.consoleLog _, ScriptEvent.exitProcess c] =>
      c != 0
  | _ => false

/-! ## Cart helpers (C8, C9), from src/unnamed/part_000 -/

/-- A JS number as produced by `parseInt`: an integer or `NaN`. -/
inductive JsNum where
  | nan
  | int (n : Int)
deriving Repr, DecidableEq

/-- JS whitespace skipped by `parseInt`. -/
def isJsWhitespaceChar (c : Char) : Bool :=
  c = ' ' || c = '\t' || c = '\n' || c = '\r' || c = '\x0b' || c = '\x0c'

def digitsToNat (l : List Char) : Nat :=
  l.foldl (fun a c => a * 10 + (c.toNat - 48)) 0

/-- JS `parseInt(s, 10)`: skip leading whitespace, read an optional sign, then
the longest prefix of decimal digits; `NaN` when there is no digit. -/
def parseIntBase10 (s : String) : JsNum :=
  let l := s.data.dropWhile isJsWhitespaceChar
  match l with
  | c :: rest =>
      if c = '-' then
        let ds := rest.takeWhile Char.isDigit
        if ds = [] then JsNum.nan else JsNum.int (-(digitsToNat ds : Int))
      else if c = '+' then
        let ds := rest.takeWhile Char.isDigit
        if ds = [] then JsNum.nan else JsNum.int (digitsToNat ds)
      else
        let ds := l.takeWhile Char.isDigit
        if ds = [] then JsNum.nan else JsNum.int (digitsToNat ds)
  | [] => JsNum.nan

/-- JS `a ?? b` for a possibly-null string. -/
def jsNullishOr (a : Option String) (b : String) : String :=
  match a with
  | some s => s
  | none => b

/-- The observable state of the `.shopping_cart_badge` locator: whether it is
visible, and its `textContent` (which may be null). -/
structure CartBadge where
  visible : Bool
  textContent : Option String

/-- From src/unnamed/part_000 lines 202-209: return 0 when the badge is not
visible, else `parseInt(text ?? '0', 10)`. -/
def getCartCount (badge : CartBadge) : JsNum :=
  if badge.visible then parseIntBase10 (jsNullishOr badge.textContent "0")
  else JsNum.int 0

/-- Actions performed by `clearCart`. -/
inductive CartAction where
  | goto (url : String)
  | clickRemoveButton (index : Nat)
deriving Repr, DecidableEq

/-- Indices visited by `for (let i = count - 1; i >= 0; i--)`. -/
def countdownIndices : Nat → List Nat
  | 0 => []
  | n + 1 => n :: countdownIndices n

/-- From src/unnamed/part_000 lines 215-222: navigate to `/cart.html`, count
the `button.cart_button` locators, then click each index from `count - 1` down
to 0. -/
def clearCart (buttonCount : Nat) : List CartAction :=
  CartAction.goto "/cart.html" ::
    (countdownIndices buttonCount).map CartAction.clickRemoveButton

/-! ## Custom action handlers (C10), from src/sdk-examples/customActions.ts -/

/-- The `\x7bsuccess, message\x7d` object returned by a custom action. -/
structure ActionResult where
  success : Bool
  message : String
deriving Repr, DecidableEq

structure EmailCodeArgs where
  email_address : String
  timeout_seconds : Option Int

structure SmsArgs where
  phone_number : String

structure UserStatusArgs where
  user_id : String

/-- From src/sdk-examples/customActions.ts lines 62-76: the
`get_email_verification_code` execute handler. -/
def getEmailVerificationCodeExec (_args : EmailCodeArgs) (store : VariableStore) :
    Except String (VariableStore × ActionResult) :=
  let code := "123456"
  let store1 := store.set "verificationCode" code false
  Except.ok (store1, { success := true, message := "Found verification code: " ++ code })

/-- From src/sdk-examples/customActions.ts lines 86-98: the `send_sms_code`
execute handler. -/
def sendSmsCodeExec (args : SmsArgs) (store : VariableStore) :
    Except String (VariableStore × ActionResult) :=
  let smsCode := "987654"
  let store1 := store.set "smsCode" smsCode false
  Except.ok (store1, { success := true, message := "SMS code sent to " ++ args.phone_number })

/-- From src/sdk-examples/customActions.ts lines 108-119: the
`check_user_status` execute handler. -/
def checkUserStatusExec (_args : UserStatusArgs) (store : VariableStore) :
    Except String (VariableStore × ActionResult) :=
  let isVerified := true
  let store1 := store.set "userVerified" (toString isVerified) false
  Except.ok (store1, { success := true, message := "User verified: " ++ toString isVerified })

/-! ## Helper lemmas and claim theorems -/

theorem find_set_self (s : VariableStore) (n v : String) (b : Bool) :
    (s.set n v b).find n = some (v, b) := by
  induction s with
  | nil => simp [VariableStore.set, VariableStore.find]
  | cons x rest ih =>
      by_cases h : x.name = n <;>
        simp [VariableStore.set, VariableStore.find, h, ih]

theorem find_set_ne (s : VariableStore) (n m v : String) (b : Bool) (h : m ≠ n) :
    (s.set n v b).find m = s.find m := by
  induction s with
  | nil => simp [VariableStore.set, VariableStore.find, Ne.symm h]
  | cons x rest ih =>
      by_cases hx : x.name = n
      · have hxm : x.name ≠ m := by rw [hx]; exact Ne.symm h
        simp [VariableStore.set, VariableStore.find, hx, hxm, Ne.symm h]
      · by_cases hm : x.name = m <;>
          simp [VariableStore.set, VariableStore.find, hx, hm, ih, h, Ne.symm h]

theorem get_set_self (s : VariableStore) (n v : String) (b : Bool) :
    (s.set n v b).get n = some v := by
  simp [VariableStore.get, find_set_self]

theorem substGo_nil (look : String → Option String) (fuel : Nat) :
    substGo look fuel [] = [] := by
  cases fuel <;> rfl

/-- C1: after `set(n, v)`, `get(n)` returns `v`, and after `set(n, v1)` followed
by `set(n, v2)`, `get(n)` returns `v2` — `set` inserts or overwrites by name and
`get` returns the most recently stored value. -/
theorem set_get_roundtrip (s : VariableStore) (n v1 v2 : String) (b1 b2 : Bool) :
    (s.set n v1 b1).get n = some v1 ∧
    ((s.set n v1 b1).set n v2 b2).get n = some v2 :=
  ⟨get_set_self s n v1 b1, get_set_self (s.set n v1 b1) n v2 b2⟩

theorem space_not_ident (c : Char) (h : isSpaceChar c = true) : isIdentChar c = false := by
  have hc : c = ' ' ∨ c = '\t' := by simpa [isSpaceChar] using h
  rcases hc with h1 | h1 <;> subst h1 <;> decide

theorem ident_not_space (c : Char) (h : isIdentChar c = true) : isSpaceChar c = false := by
  cases hs : isSpaceChar c
  · rfl
  · rw [space_not_ident c hs] at h
    exact absurd h (by decide)

theorem dropWhile_length_le (p : Char → Bool) (l : List Char) :
    (l.dropWhile p).length ≤ l.length := by
  induction l with
  | nil => simp
  | cons c t ih =>
      by_cases h : p c = true
      · simp only [List.dropWhile_cons, if_pos h]
        exact Nat.le_succ_of_le ih
      · simp [List.dropWhile_cons, h]

theorem parseBraces_rest_length (l : List Char) (m : BraceMatch)
    (h : parseBraces l = some m) : m.rest.length ≤ l.length := by
  simp only [parseBraces] at h
  split at h
  case _ d1 d2 rest1 heq1 heq2 =>
    split at h
    · split at h
      · have hm := Option.some.inj h
        have hlen : rest1.length + 2 =
            (((l.dropWhile isSpaceChar).dropWhile isIdentChar).dropWhile
              isSpaceChar).length := by
          rw [heq2]
          simp
        have hle : (((l.dropWhile isSpaceChar).dropWhile isIdentChar).dropWhile
            isSpaceChar).length ≤ l.length :=
          le_trans (dropWhile_length_le _ _)
            (le_trans (dropWhile_length_le _ _) (dropWhile_length_le _ _))
        have hr : m.rest = rest1 := by rw [← hm]
        rw [hr]
        omega
      · exact absurd h (by simp)
    · exact absurd h (by simp)
  case _ =>
    exact absurd h (by simp)

theorem substGo_fuel (look : String → Option String) :
    ∀ (k : Nat) (l : List Char) (f1 f2 : Nat), l.length ≤ k → l.length ≤ f1 →
      l.length ≤ f2 → substGo look f1 l = substGo look f2 l := by
  intro k
  induction k with
  | zero =>
      intro l f1 f2 hk _ _
      have hl : l = [] := List.length_eq_zero.mp (Nat.le_zero.mp hk)
      subst hl
      cases f1 <;> cases f2 <;> rfl
  | succ k ih =>
      intro l f1 f2 hk h1 h2
      cases l with
      | nil => cases f1 <;> cases f2 <;> rfl
      | cons c rest =>
          cases f1 with
          | zero => simp at h1
          | succ f1 =>
              cases f2 with
              | zero => simp at h2
              | succ f2 =>
                  have hk2 : rest.length ≤ k := by simpa using hk
                  have h12 : rest.length ≤ f1 := by simpa using h1
                  have h22 : rest.length ≤ f2 := by simpa using h2
                  simp only [substGo]
                  by_cases hc : c = '$'
                  · simp only [if_pos hc]
                    by_cases hn : rest.takeWhile isIdentChar = []
                    · simp only [if_pos hn]
                      rw [ih rest f1 f2 hk2 h12 h22]
                    · simp only [if_neg hn]
                      have hd : (rest.dropWhile isIdentChar).length ≤ rest.length :=
                        dropWhile_length_le isIdentChar rest
                      cases look (String.mk (rest.takeWhile isIdentChar)) with
                      | some v =>
                          rw [ih (rest.dropWhile isIdentChar) f1 f2 (le_trans hd hk2)
                            (le_trans hd h12) (le_trans hd h22)]
                      | none =>
                          rw [ih (rest.dropWhile isIdentChar) f1 f2 (le_trans hd hk2)
                            (le_trans hd h12) (le_trans hd h22)]
                  · simp only [if_neg hc]
                    by_cases hb : c = '\x7b'
                    · simp only [if_pos hb]
                      cases rest with
                      | nil => rfl
                      | cons c2 rest2 =>
                          have hk3 : rest2.length ≤ k := by simp at hk2; omega
                          have h13 : rest2.length ≤ f1 := by simp at h12; omega
                          have h23 : rest2.length ≤ f2 := by simp at h22; omega
                          by_cases hc2 : c2 = '\x7b'
                          · simp only [if_pos hc2]
                            cases hp : parseBraces rest2 with
                            | some m =>
                                dsimp only
                                have hm : m.rest.length ≤ rest2.length :=
                                  parseBraces_rest_length rest2 m hp
                                cases look (String.mk m.nameChars) with
                                | some v =>
                                    rw [ih m.rest f1 f2 (le_trans hm hk3)
                                      (le_trans hm h13) (le_trans hm h23)]
                                | none =>
                                    rw [ih m.rest f1 f2 (le_trans hm hk3)
                                      (le_trans hm h13) (le_trans hm h23)]
                            | none =>
                                dsimp only
                                rw [ih (c2 :: rest2) f1 f2 hk2 h12 h22]
                          · simp only [if_neg hc2]
                            rw [ih (c2 :: rest2) f1 f2 hk2 h12 h22]
                    · simp only [if_neg hb]
                      rw [ih rest f1 f2 hk2 h12 h22]

theorem substRun_nil (look : String → Option String) : substRun look [] = [] := rfl

theorem substRun_cons_other (look : String → Option String) (c : Char) (rest : List Char)
    (hc : c ≠ '$') (hb : c ≠ '\x7b') :
    substRun look (c :: rest) = c :: substRun look rest := by
  unfold substRun
  simp only [List.length_cons, substGo, if_neg hc, if_neg hb]

theorem substRun_lit (look : String → Option String) (s rest : List Char)
    (hs : ∀ c ∈ s, c ≠ '$' ∧ c ≠ '\x7b') :
    substRun look (s ++ rest) = s ++ substRun look rest := by
  induction s with
  | nil => simp
  | cons c t ih =>
      have hc := hs c (List.mem_cons_self c t)
      rw [List.cons_append, substRun_cons_other look c (t ++ rest) hc.1 hc.2,
        ih (fun d hd => hs d (List.mem_cons_of_mem c hd))]
      rfl

theorem takeWhile_append_all (p : Char → Bool) (a b : List Char)
    (ha : ∀ c ∈ a, p c = true) :
    (a ++ b).takeWhile p = a ++ b.takeWhile p := by
  induction a with
  | nil => simp
  | cons c t ih =>
      have hc : p c = true := ha c (List.mem_cons_self c t)
      simp [List.takeWhile_cons, hc, ih (fun d hd => ha d (List.mem_cons_of_mem c hd))]

theorem dropWhile_append_all (p : Char → Bool) (a b : List Char)
    (ha : ∀ c ∈ a, p c = true) :
    (a ++ b).dropWhile p = b.dropWhile p := by
  induction a with
  | nil => simp
  | cons c t ih =>
      have hc : p c = true := ha c (List.mem_cons_self c t)
      simp [List.dropWhile_cons, hc, ih (fun d hd => ha d (List.mem_cons_of_mem c hd))]

theorem takeWhile_ident_head (l : List Char) (h : headNotIdent l = true) :
    l.takeWhile isIdentChar = [] := by
  cases l with
  | nil => rfl
  | cons c t =>
      have hc : isIdentChar c = false := by simpa [headNotIdent] using h
      simp [List.takeWhile_cons, hc]

theorem dropWhile_ident_head (l : List Char) (h : headNotIdent l = true) :
    l.dropWhile isIdentChar = l := by
  cases l with
  | nil => rfl
  | cons c t =>
      have hc : isIdentChar c = false := by simpa [headNotIdent] using h
      simp [List.dropWhile_cons, hc]

theorem parseBraces_render (w1 n w2 rest : List Char)
    (hw1 : ∀ c ∈ w1, isSpaceChar c = true)
    (hn : n ≠ []) (hid : ∀ c ∈ n, isIdentChar c = true)
    (hw2 : ∀ c ∈ w2, isSpaceChar c = true) :
    parseBraces (w1 ++ (n ++ (w2 ++ ('\x7d' :: '\x7d' :: rest)))) =
      some ⟨w1, n, w2, rest⟩ := by
  cases n with
  | nil => exact absurd rfl hn
  | cons nh nt =>
      have hnh : isIdentChar nh = true := hid nh (List.mem_cons_self nh nt)
      have hns : isSpaceChar nh = false := ident_not_space nh hnh
      have hX2 : headNotIdent (w2 ++ ('\x7d' :: '\x7d' :: rest)) = true := by
        cases w2 with
        | nil =>
            simp [headNotIdent]
            decide
        | cons c t =>
            have hcs := space_not_ident c (hw2 c (List.mem_cons_self c t))
            simp [headNotIdent, hcs]
      have htake1 : (w2 ++ ('\x7d' :: '\x7d' :: rest)).takeWhile isIdentChar = [] :=
        takeWhile_ident_head _ hX2
      have hdrop1 : (w2 ++ ('\x7d' :: '\x7d' :: rest)).dropWhile isIdentChar =
          w2 ++ ('\x7d' :: '\x7d' :: rest) :=
        dropWhile_ident_head _ hX2
      have ht1 : (w1 ++ ((nh :: nt) ++ (w2 ++ ('\x7d' :: '\x7d' :: rest)))).takeWhile
          isSpaceChar = w1 := by
        rw [takeWhile_append_all isSpaceChar w1 _ hw1]
        simp [List.takeWhile_cons, hns]
      have hd1 : (w1 ++ ((nh :: nt) ++ (w2 ++ ('\x7d' :: '\x7d' :: rest)))).dropWhile
          isSpaceChar = (nh :: nt) ++ (w2 ++ ('\x7d' :: '\x7d' :: rest)) := by
        rw [dropWhile_append_all isSpaceChar w1 _ hw1]
        simp [List.dropWhile_cons, hns]
      have ht2 : ((nh :: nt) ++ (w2 ++ ('\x7d' :: '\x7d' :: rest))).takeWhile
          isIdentChar = nh :: nt := by
        rw [takeWhile_append_all isIdentChar _ _ hid, htake1, List.append_nil]
      have hd2 : ((nh :: nt) ++ (w2 ++ ('\x7d' :: '\x7d' :: rest))).dropWhile
          isIdentChar = w2 ++ ('\x7d' :: '\x7d' :: rest) := by
        rw [dropWhile_append_all isIdentChar _ _ hid, hdrop1]
      have hbs : isSpaceChar '\x7d' = false := by decide
      have ht3 : (w2 ++ ('\x7d' :: '\x7d' :: rest)).takeWhile isSpaceChar = w2 := by
        rw [takeWhile_append_all isSpaceChar w2 _ hw2]
        simp [List.takeWhile_cons, hbs]
      have hd3 : (w2 ++ ('\x7d' :: '\x7d' :: rest)).dropWhile isSpaceChar =
          '\x7d' :: '\x7d' :: rest := by
        rw [dropWhile_append_all isSpaceChar w2 _ hw2]
        simp [List.dropWhile_cons, hbs]
      simp only [parseBraces, ht1, hd1, ht2, hd2, ht3, hd3]
      simp

theorem substRun_dollar (look : String → Option String) (n rest : List Char)
    (hn : n ≠ []) (hid : ∀ c ∈ n, isIdentChar c = true)
    (hhead : headNotIdent rest = true) :
    substRun look ('$' :: (n ++ rest)) =
      Piece.resolveOne look (Piece.dollar n) ++ substRun look rest := by
  have htake : (n ++ rest).takeWhile isIdentChar = n := by
    rw [takeWhile_append_all isIdentChar n rest hid, takeWhile_ident_head rest hhead,
      List.append_nil]
  have hdrop : (n ++ rest).dropWhile isIdentChar = rest := by
    rw [dropWhile_append_all isIdentChar n rest hid, dropWhile_ident_head rest hhead]
  have hfuel : substGo look (n ++ rest).length rest = substGo look rest.length rest :=
    substGo_fuel look (n ++ rest).length rest (n ++ rest).length rest.length
      (by simp only [List.length_append]; omega) (by simp only [List.length_append]; omega)
      (le_refl _)
  unfold substRun
  simp only [List.length_cons, substGo, if_pos rfl, htake, hdrop, if_neg hn]
  rw [hfuel]
  cases hlk : look (String.mk n) with
  | some v => simp [Piece.resolveOne, hlk, substRun]
  | none => simp [Piece.resolveOne, hlk, substRun]

theorem substRun_braces (look : String → Option String) (w1 n w2 rest : List Char)
    (hw1 : ∀ c ∈ w1, isSpaceChar c = true)
    (hn : n ≠ []) (hid : ∀ c ∈ n, isIdentChar c = true)
    (hw2 : ∀ c ∈ w2, isSpaceChar c = true) :
    substRun look ('\x7b' :: '\x7b' :: (w1 ++ (n ++ (w2 ++ ('\x7d' :: '\x7d' :: rest))))) =
      Piece.resolveOne look (Piece.braces w1 n w2) ++ substRun look rest := by
  have hp := parseBraces_render w1 n w2 rest hw1 hn hid hw2
  have hne : ('\x7b' : Char) ≠ '$' := by decide
  have hfuel : substGo look
      ((w1 ++ (n ++ (w2 ++ ('\x7d' :: '\x7d' :: rest)))).length + 1) rest =
      substGo look rest.length rest :=
    substGo_fuel look ((w1 ++ (n ++ (w2 ++ ('\x7d' :: '\x7d' :: rest)))).length + 1) rest
      ((w1 ++ (n ++ (w2 ++ ('\x7d' :: '\x7d' :: rest)))).length + 1) rest.length
      (by simp only [List.length_append, List.length_cons]; omega)
      (by simp only [List.length_append, List.length_cons]; omega)
      (le_refl _)
  unfold substRun
  simp only [List.length_cons, substGo, if_neg hne, if_pos rfl, hp]
  rw [hfuel]
  cases hlk : look (String.mk n) with
  | some v => simp [Piece.resolveOne, hlk, substRun]
  | none => simp [Piece.resolveOne, hlk, substRun, List.append_assoc]

theorem render_ne_nil (p : Piece) (h : p.wf) : p.render ≠ [] := by
  cases p with
  | lit s => exact h.1
  | dollar n => simp [Piece.render]
  | braces w1 n w2 => simp [Piece.render]

theorem headNotIdent_append (a b : List Char) (ha : a ≠ []) :
    headNotIdent (a ++ b) = headNotIdent a := by
  cases a with
  | nil => exact absurd rfl ha
  | cons c t => rfl

theorem sepOk_tail (p : Piece) (ps : List Piece) (h : sepOk (p :: ps) = true) :
    sepOk ps = true := by
  cases ps with
  | nil => rfl
  | cons q qs =>
      cases p with
      | lit s => simpa [sepOk] using h
      | dollar n =>
          have hx : (headNotIdent q.render && sepOk (q :: qs)) = true := by
            simpa [sepOk] using h
          exact (Bool.and_eq_true_iff.mp hx).2
      | braces w1 n w2 => simpa [sepOk] using h

theorem sepOk_dollar_head (n : List Char) (q : Piece) (qs : List Piece)
    (h : sepOk (Piece.dollar n :: q :: qs) = true) :
    headNotIdent q.render = true := by
  have hx : (headNotIdent q.render && sepOk (q :: qs)) = true := by
    simpa [sepOk] using h
  exact (Bool.and_eq_true_iff.mp hx).1

theorem substRun_pieces (look : String → Option String) :
    ∀ ps : List Piece, (∀ p ∈ ps, p.wf) → sepOk ps = true →
      substRun look ((ps.map Piece.render).flatten) =
        (ps.map (Piece.resolveOne look)).flatten := by
  intro ps
  induction ps with
  | nil => intro _ _; rfl
  | cons p ps ih =>
      intro hwf hsep
      have hwp : p.wf := hwf p (List.mem_cons_self p ps)
      have hwfs : ∀ q ∈ ps, q.wf := fun q hq => hwf q (List.mem_cons_of_mem p hq)
      have hsep2 : sepOk ps = true := sepOk_tail p ps hsep
      simp only [List.map_cons, List.flatten_cons]
      cases p with
      | lit s =>
          rcases hwp with ⟨hne, hcs⟩
          have hr : Piece.render (Piece.lit s) = s := rfl
          have ho : Piece.resolveOne look (Piece.lit s) = s := rfl
          rw [hr, ho, substRun_lit look s _ hcs, ih hwfs hsep2]
      | dollar n =>
          rcases hwp with ⟨hne, hid⟩
          have hhead : headNotIdent ((ps.map Piece.render).flatten) = true := by
            cases ps with
            | nil => rfl
            | cons q qs =>
                have hq : q.wf := hwfs q (List.mem_cons_self q qs)
                have hrq : q.render ≠ [] := render_ne_nil q hq
                have hsq : headNotIdent q.render = true := sepOk_dollar_head n q qs hsep
                simp only [List.map_cons, List.flatten_cons]
                rw [headNotIdent_append _ _ hrq]
                exact hsq
          have hrender : Piece.render (Piece.dollar n) ++ (ps.map Piece.render).flatten =
              '$' :: (n ++ (ps.map Piece.render).flatten) := by
            simp [Piece.render]
          rw [hrender, substRun_dollar look n _ hne hid hhead, ih hwfs hsep2]
      | braces w1 n w2 =>
          rcases hwp with ⟨hw1, ⟨hne, hid⟩, hw2⟩
          have hrender : Piece.render (Piece.braces w1 n w2) ++
              (ps.map Piece.render).flatten =
              '\x7b' :: '\x7b' ::
                (w1 ++ (n ++ (w2 ++ ('\x7d' :: '\x7d' ::
                  (ps.map Piece.render).flatten)))) := by
            simp [Piece.render, List.append_assoc]
          rw [hrender, substRun_braces look w1 n w2 _ hw1 hne hid hw2, ih hwfs hsep2]

theorem substitute_dollar (look : String → Option String) (n v : String) (hne : n ≠ "")
    (hid : ∀ c ∈ n.data, isIdentChar c = true) (hlook : look n = some v) :
    substitute look ("$" ++ n) = v := by
  have hdata : ("$" ++ n).data = '$' :: n.data := by
    rw [String.data_append]; rfl
  have hnd : n.data ≠ [] := by
    intro hh
    apply hne
    cases n with
    | mk d => simp at hh; simp [hh]
  have hmk : String.mk n.data = n := rfl
  have hd : substRun look ('$' :: (n.data ++ [])) =
      Piece.resolveOne look (Piece.dollar n.data) ++ substRun look [] :=
    substRun_dollar look n.data [] hnd hid rfl
  rw [List.append_nil, substRun_nil, List.append_nil] at hd
  show String.mk (substGo look ("$" ++ n).data.length ("$" ++ n).data) = v
  rw [hdata]
  have hrun : substGo look ('$' :: n.data).length ('$' :: n.data) =
      Piece.resolveOne look (Piece.dollar n.data) := hd
  rw [hrun]
  simp only [Piece.resolveOne, hmk, hlook]

theorem resolve_dollar (s : VariableStore) (n v : String) (hne : n ≠ "")
    (hid : ∀ c ∈ n.data, isIdentChar c = true) :
    (s.set n v false).resolve ("$" ++ n) = v :=
  substitute_dollar (fun m => (s.set n v false).get m) n v hne hid (get_set_self s n v false)

theorem find_maskSensitive (s : VariableStore) (n : String) :
    (s.maskSensitive).find n =
      (s.find n).map (fun vb => (if vb.2 then maskToken else vb.1, vb.2)) := by
  induction s with
  | nil => rfl
  | cons x rest ih =>
      by_cases hx : x.name = n <;> by_cases hs : x.sensitive = true <;>
        simp [VariableStore.maskSensitive, VariableStore.find, hx, hs, ih] <;>
        simp_all [VariableStore.maskSensitive]

theorem renderForLog_eq_resolve_mask (s : VariableStore) (text : String) :
    s.renderForLog text = (s.maskSensitive).resolve text := by
  unfold VariableStore.renderForLog VariableStore.resolve
  have hlook : (fun n => (s.maskSensitive).get n) =
      (fun n => (s.find n).map (fun vb => if vb.2 then maskToken else vb.1)) := by
    funext n
    show ((s.maskSensitive).find n).map Prod.fst = _
    rw [find_maskSensitive]
    cases s.find n with
    | none => rfl
    | some vb => rfl
  rw [hlook]

theorem renderForLog_dollar_plain (s : VariableStore) (n v : String) (hne : n ≠ "")
    (hid : ∀ c ∈ n.data, isIdentChar c = true) :
    (s.set n v false).renderForLog ("$" ++ n) = v := by
  unfold VariableStore.renderForLog
  exact substitute_dollar _ n v hne hid (by simp only [find_set_self]; rfl)

theorem renderForLog_noninterference (s : VariableStore) (n v1 v2 text : String) :
    (s.set n v1 true).renderForLog text = (s.set n v2 true).renderForLog text := by
  unfold VariableStore.renderForLog
  have hlook :
      (fun m => ((s.set n v1 true).find m).map (fun vb => if vb.2 then maskToken else vb.1))
        = (fun m => ((s.set n v2 true).find m).map
            (fun vb => if vb.2 then maskToken else vb.1)) := by
    funext m
    by_cases h : m = n
    · subst h
      rw [find_set_self, find_set_self]
      simp
    · rw [find_set_ne _ _ _ _ _ h, find_set_ne _ _ _ _ _ h]
  rw [hlook]

/-- C2: for every input string, presented as any decomposition into literal
pieces (free of placeholder-starting characters) and `$name` /
`\x7b\x7b name \x7d\x7d` placeholders, `resolve` keeps the literal text,
replaces every placeholder whose name is set in the store by the stored value,
and leaves every placeholder whose name is unset verbatim — so every
occurrence is substituted, not just the first; in particular, after
`set("x","hello")` both `resolve("$x")` and `resolve("\x7b\x7b x \x7d\x7d")`
yield `"hello"`, also mid-string and for repeated occurrences. -/
theorem resolve_substitutes :
    (∀ (s : VariableStore) (ps : List Piece), (∀ p ∈ ps, p.wf) → sepOk ps = true →
        s.resolve (String.mk ((ps.map Piece.render).flatten)) =
          String.mk ((ps.map (Piece.resolveOne (fun n => s.get n))).flatten))
    ∧ (∀ (s : VariableStore) (n v : String), n ≠ "" →
        (∀ c ∈ n.data, isIdentChar c = true) →
        (s.set n v false).resolve ("$" ++ n) = v)
    ∧ (VariableStore.empty.set "x" "hello" false).resolve "$x" = "hello"
    ∧ (VariableStore.empty.set "x" "hello" false).resolve "\x7b\x7b x \x7d\x7d" = "hello"
    ∧ (VariableStore.empty.set "x" "hello" false).resolve "say $x world" = "say hello world"
    ∧ (VariableStore.empty.set "x" "hello" false).resolve "a \x7b\x7bx\x7d\x7d b" = "a hello b"
    ∧ (VariableStore.empty.set "x" "hello" false).resolve "$x $x \x7b\x7b x \x7d\x7d $y" =
        "hello hello hello $y"
    ∧ VariableStore.empty.resolve "$missing" = "$missing"
    ∧ VariableStore.empty.resolve "\x7b\x7b missing \x7d\x7d" = "\x7b\x7b missing \x7d\x7d" :=
  ⟨fun s ps h1 h2 => congrArg String.mk (substRun_pieces (fun n => s.get n) ps h1 h2),
   resolve_dollar, by decide, by decide, by decide, by decide, by decide, by decide,
   by decide⟩

theorem resolve_substitutes_witness :
    ((VariableStore.empty.set "x" "ok" false).resolve
        (String.mk (([Piece.dollar ['x'], Piece.lit [' '], Piece.dollar ['x']].map
          Piece.render).flatten)) =
      String.mk (([Piece.dollar ['x'], Piece.lit [' '], Piece.dollar ['x']].map
          (Piece.resolveOne
            (fun n => (VariableStore.empty.set "x" "ok" false).get n))).flatten))
    ∧ (VariableStore.empty.set "user" "alice" false).resolve ("$" ++ "user") = "alice" :=
  ⟨resolve_substitutes.1 (VariableStore.empty.set "x" "ok" false)
      [Piece.dollar ['x'], Piece.lit [' '], Piece.dollar ['x']] (by decide) (by decide),
   resolve_substitutes.2.1 VariableStore.empty "user" "alice" (by decide) (by decide)⟩

/-- C3: `renderForLog` performs the same substitution as `resolve`, except
that every sensitive variable contributes the fixed mask token instead of its
value — stated as: on every input string, `renderForLog` coincides with
`resolve` over the store whose sensitive values are replaced by the mask
token, so non-sensitive variables are substituted by their real values (proved
universally for `$name`) while a sensitive variable always renders as the mask
token; after `set("p","secret",true)`, `renderForLog("$p")` yields the mask
token and never `"secret"`, and the rendered output does not depend on the
sensitive value at all (noninterference). -/
theorem renderForLog_masks :
    (∀ (s : VariableStore) (text : String),
        s.renderForLog text = (s.maskSensitive).resolve text)
    ∧ (∀ (s : VariableStore) (n v : String), n ≠ "" →
        (∀ c ∈ n.data, isIdentChar c = true) →
        (s.set n v false).renderForLog ("$" ++ n) = v)
    ∧ (∀ (s : VariableStore) (n v1 v2 text : String),
        (s.set n v1 true).renderForLog text = (s.set n v2 true).renderForLog text)
    ∧ (VariableStore.empty.set "p" "secret" true).renderForLog "$p" = maskToken
    ∧ maskToken = "***"
    ∧ (VariableStore.empty.set "p" "secret" true).renderForLog "$p" ≠ "secret"
    ∧ (VariableStore.empty.set "p" "secret" true).resolve "$p" = "secret"
    ∧ (VariableStore.empty.set "u" "bob" false).renderForLog "$u" = "bob" :=
  ⟨renderForLog_eq_resolve_mask, renderForLog_dollar_plain, renderForLog_noninterference,
   by decide, by decide, by decide, by decide, by decide⟩

theorem renderForLog_masks_witness :
    ((VariableStore.empty.set "q" "topsecret" true).renderForLog "$q" =
      ((VariableStore.empty.set "q" "topsecret" true).maskSensitive).resolve "$q")
    ∧ (VariableStore.empty.set "u2" "carol" false).renderForLog ("$" ++ "u2") = "carol" :=
  ⟨renderForLog_masks.1 (VariableStore.empty.set "q" "topsecret" true) "$q",
   renderForLog_masks.2.1 VariableStore.empty "u2" "carol" (by decide) (by decide)⟩

/-- C4: masking never alters stored state — `renderForLog` leaves the store's
mapping unchanged, and `get` always returns the real stored value, never a
masked one, even for sensitive variables. -/
theorem masking_never_alters_store :
    (∀ (s : VariableStore) (text : String), (s.renderForLogCall text).2 = s)
    ∧ (∀ (s : VariableStore) (text n : String),
        ((s.renderForLogCall text).2).get n = s.get n)
    ∧ (∀ (s : VariableStore) (n v : String) (b : Bool), (s.set n v b).get n = some v)
    ∧ (VariableStore.empty.set "p" "secret" true).get "p" = some "secret" :=
  ⟨fun _ _ => rfl, fun _ _ _ => rfl, fun s n v b => get_set_self s n v b, by decide⟩

/-- C5: an `agent.step` failure is reported via the returned `{success,
details}` object, never via a thrown error: the call always yields a result,
`success` is false exactly when both the fallback and (when attempted) the
recovery failed, the failure text is carried in `details`, and the calling
script branches on `result.success` with no exception handling around the
call. -/
theorem step_failure_via_result (fallback recovery : Except String Unit) (m : Nat) :
    (∃ r : AgentStepResult, stepModel fallback recovery m = r ∧
        (r.success = true ↔
          (fallback = Except.ok () ∨ (m ≠ 0 ∧ recovery = Except.ok ()))))
    ∧ (∀ e, fallback = Except.error e → m = 0 →
        stepModel fallback recovery m = ⟨false, some e⟩)
    ∧ (∃ logs, part1Run fallback recovery = Except.ok logs)
    ∧ (∀ r : AgentStepResult, r.success = false →
        part1Report r = [("   result.success: " ++ toString r.success),
          "   Self-healing failed: " ++ jsShowOpt r.details ++ "\n"]) := by
  refine ⟨⟨stepModel fallback recovery m, rfl, ?_⟩, ?_, ⟨_, rfl⟩, ?_⟩
  · cases fallback with
    | ok u =>
        cases u
        cases recovery with
        | ok u2 => cases u2; by_cases hm : m = 0 <;> simp [stepModel, hm]
        | error e2 => by_cases hm : m = 0 <;> simp [stepModel, hm]
    | error e =>
        cases recovery with
        | ok u2 => cases u2; by_cases hm : m = 0 <;> simp [stepModel, hm]
        | error e2 => by_cases hm : m = 0 <;> simp [stepModel, hm]
  · intro e hf hm
    subst hf; subst hm
    simp [stepModel]
  · intro r h
    simp [part1Report, h]

theorem step_failure_via_result_witness :
    stepModel (Except.error "boom") (Except.ok ()) 0 = ⟨false, some "boom"⟩ :=
  (step_failure_via_result (Except.error "boom") (Except.ok ()) 0).2.1 "boom" rfl rfl

/-- C6: `agent.assert` fails with a thrown error exactly when the asserted
condition is false, and in the example script that error is caught and logged
by the surrounding try/catch rather than propagating uncaught. -/
theorem assert_throws_iff_false (cond : Bool) :
    ((∃ e, assertModel cond = Except.error e) ↔ cond = false)
    ∧ (∃ logs, assertDemoSection cond = Except.ok logs)
    ∧ assertDemoSection true = Except.ok ["Assertion passed (unexpected)"]
    ∧ assertDemoSection false =
        Except.ok ["Assertion failed as expected:\n " ++ "Assertion failed"] := by
  refine ⟨?_, ?_, rfl, rfl⟩
  · cases cond <;> simp [assertModel]
  · cases cond
    · exact ⟨_, rfl⟩
    · exact ⟨_, rfl⟩

/-- C7: in every example script, when the required API key environment
variables are unset the prelude prints a console message and exits the process
with a non-zero code, without configuring the SDK or creating an agent. -/
theorem missing_key_exits (env : Env)
    (ha : env.anthropicApiKey = none)
    (hg : env.googleApiKey = none)
    (hgg : env.googleGenerativeAiApiKey = none) :
    examplePreludes.all (fun p => guardFailTrace (p env)) = true
    ∧ quickStartPrelude env =
        [ScriptEvent.consoleError "Error: ANTHROPIC_API_KEY not set",
          ScriptEvent.consoleLog anthropicKeyHint, ScriptEvent.exitProcess 1]
    ∧ basicUsagePrelude env =
        [ScriptEvent.consoleError "❌ Error: GOOGLE_API_KEY not set",
          ScriptEvent.consoleLog googleKeyHint, ScriptEvent.exitProcess 1] := by
  cases env with
  | mk a g gg =>
      have ha2 : a = none := ha
      have hg2 : g = none := hg
      have hgg2 : gg = none := hgg
      subst ha2; subst hg2; subst hgg2
      exact ⟨by decide, rfl, rfl⟩

/-- C8: `getCartCount` returns 0 when the cart badge is not visible; when it is
visible it returns the badge text parsed as a base-10 integer, treating null
text as `"0"`, so a visible badge with non-numeric text yields `NaN` rather
than 0. -/
theorem getCartCount_spec (badge : CartBadge) :
    (badge.visible = false → getCartCount badge = JsNum.int 0)
    ∧ (badge.visible = true →
        getCartCount badge = parseIntBase10 (jsNullishOr badge.textContent "0"))
    ∧ getCartCount ⟨true, none⟩ = JsNum.int 0
    ∧ getCartCount ⟨true, some "3"⟩ = JsNum.int 3
    ∧ getCartCount ⟨true, some "items"⟩ = JsNum.nan
    ∧ getCartCount ⟨true, some "items"⟩ ≠ JsNum.int 0 := by
  refine ⟨?_, ?_, by decide, by decide, by decide, by decide⟩
  · intro h; simp [getCartCount, h]
  · intro h; simp [getCartCount, h]

theorem getCartCount_spec_witness :
    getCartCount ⟨false, some "7"⟩ = JsNum.int 0 :=
  (getCartCount_spec ⟨false, some "7"⟩).1 rfl

theorem mem_countdownIndices (i n : Nat) : i ∈ countdownIndices n ↔ i < n := by
  induction n with
  | zero => simp [countdownIndices]
  | succ k ih =>
      simp only [countdownIndices, List.mem_cons, ih]
      omega

theorem pairwise_countdownIndices (n : Nat) :
    List.Pairwise (· > ·) (countdownIndices n) := by
  induction n with
  | zero => simp [countdownIndices]
  | succ k ih =>
      refine List.Pairwise.cons ?_ ih
      intro b hb
      exact (mem_countdownIndices b k).mp hb

/-- C9: `clearCart` first navigates to `/cart.html`, then clicks the remove
buttons in strictly decreasing index order from `count - 1` down to 0, each
index below `count` exactly once. -/
theorem clearCart_spec (c : Nat) :
    clearCart c = CartAction.goto "/cart.html" ::
        (countdownIndices c).map CartAction.clickRemoveButton
    ∧ List.Pairwise (· > ·) (countdownIndices c)
    ∧ (∀ i, i ∈ countdownIndices c ↔ i < c)
    ∧ (countdownIndices c).length = c
    ∧ (countdownIndices c).Nodup := by
  refine ⟨rfl, pairwise_countdownIndices c, fun i => mem_countdownIndices i c, ?_, ?_⟩
  · induction c with
    | zero => rfl
    | succ k ih => simp [countdownIndices, ih]
  · exact (pairwise_countdownIndices c).imp (fun h => Nat.ne_of_gt h)

theorem sms_message_ne_empty (p : String) : ("SMS code sent to " ++ p) ≠ "" := by
  intro h
  have hd := congrArg String.data h
  rw [String.data_append] at hd
  rcases List.append_eq_nil.mp hd with ⟨h1, _⟩
  exact absurd h1 (by decide)

/-- C10: each custom-action handler writes its fixed value into the variable
store (`verificationCode = "123456"`, `smsCode = "987654"`,
`userVerified = "true"`) and returns `success: true` with a non-empty message;
no handler returns `success: false` or throws. -/
theorem customActions_execute_spec (e : EmailCodeArgs) (sm : SmsArgs)
    (u : UserStatusArgs) (store : VariableStore) :
    (∃ s1, getEmailVerificationCodeExec e store =
        Except.ok (s1, ⟨true, "Found verification code: 123456"⟩)
      ∧ s1.get "verificationCode" = some "123456")
    ∧ (∃ s2 msg, sendSmsCodeExec sm store = Except.ok (s2, ⟨true, msg⟩)
      ∧ s2.get "smsCode" = some "987654" ∧ msg ≠ "")
    ∧ (∃ s3, checkUserStatusExec u store =
        Except.ok (s3, ⟨true, "User verified: true"⟩)
      ∧ s3.get "userVerified" = some "true") := by
  refine ⟨⟨_, rfl, ?_⟩, ⟨_, _, rfl, ?_, sms_message_ne_empty sm.phone_number⟩, ⟨_, rfl, ?_⟩⟩
  · exact get_set_self store "verificationCode" "123456" false
  · exact get_set_self store "smsCode" "987654" false
  · exact get_set_self store "userVerified" "true" false

theorem missing_key_exits_witness :
    examplePreludes.all (fun p => guardFailTrace (p ⟨none, none, none⟩)) = true
    ∧ quickStartPrelude ⟨none, none, none⟩ =
        [ScriptEvent.consoleError "Error: ANTHROPIC_API_KEY not set",
          ScriptEvent.consoleLog anthropicKeyHint, ScriptEvent.exitProcess 1]
    ∧ basicUsagePrelude ⟨none, none, none⟩ =
        [ScriptEvent.consoleError "❌ Error: GOOGLE_API_KEY not set",
          ScriptEvent.consoleLog googleKeyHint, ScriptEvent.exitProcess 1] :=
  missing_key_exits ⟨none, none, none⟩ rfl rfl rfl

end Shiplight
